import Mathlib

/-!
Verification of the script / signature-hash core of python-evrmorelib
(`evrmore/core/script.py`).  Scripts are byte strings, modelled as
`List Nat` with each element a byte value.  External collaborators
(double-SHA256, HASH160, the transaction serializer) are parameters of
the functions that consume them, matching the module boundary of the
source.
-/

namespace Evrmore

/-- `MAX_SCRIPT_ELEMENT_SIZE` from the source. -/
def MAX_SCRIPT_ELEMENT_SIZE : Nat := 520

/-- A raw operation as yielded by `CScript.raw_iter`:
`(opcode, optional push data, start-of-operation byte offset)`. -/
def RawOp : Type := Nat × Option (List Nat) × Nat

instance : DecidableEq RawOp := by unfold RawOp; infer_instance

instance {ε α : Type} [DecidableEq ε] [DecidableEq α] : DecidableEq (Except ε α) := fun x y =>
  match x, y with
  | .ok a, .ok b => decidable_of_iff (a = b) (by simp)
  | .error a, .error b => decidable_of_iff (a = b) (by simp)
  | .ok _, .error _ => isFalse (by simp)
  | .error _, .ok _ => isFalse (by simp)

/-- `CScriptOp.encode_op_pushdata`: smallest-prefix push encoding of `d`;
`none` models the `ValueError` for data longer than `0xffffffff` bytes.
The two- and four-byte length prefixes are little-endian (`struct.pack`
with `<H` / `<I`). -/
def encode_op_pushdata (d : List Nat) : Option (List Nat) :=
  if d.length < 0x4c then
    some (d.length :: d)
  else if d.length ≤ 0xff then
    some (0x4c :: d.length :: d)
  else if d.length ≤ 0xffff then
    some (0x4d :: d.length % 256 :: d.length / 256 :: d)
  else if d.length ≤ 0xffffffff then
    some (0x4e :: d.length % 256 :: d.length / 256 % 256 ::
          d.length / 65536 % 256 :: d.length / 16777216 :: d)
  else
    none

/-- `CScriptOp.encode_op_n`: small-integer opcode; `none` models the
`ValueError` outside `[0, 16]`. -/
def encode_op_n (n : Nat) : Option Nat :=
  if 16 < n then none
  else if n = 0 then some 0x00
  else some (0x51 + n - 1)

/-- `CScriptOp.decode_op_n`: `none` models the `ValueError` for an opcode
that is not `OP_0` or `OP_1..OP_16`. -/
def decode_op_n (b : Nat) : Option Nat :=
  if b = 0x00 then some 0
  else if 0x51 ≤ b ∧ b ≤ 0x60 then some (b - 0x51 + 1)
  else none

/-- `CScriptOp.is_small_int`. -/
def is_small_int (b : Nat) : Bool :=
  decide ((0x51 ≤ b ∧ b ≤ 0x60) ∨ b = 0)

/-- Fuel-driven body of `CScript.raw_iter`.  Each step consumes at least
one byte, so fuel `l.length` always suffices; the fuel-exhaustion arm is
unreachable from `rawIter` below.  Errors are the `CScriptInvalidError` /
`CScriptTruncatedPushDataError` exceptions of the source (the whole-stream
`Except` result reports the error that lazy iteration would eventually
raise). -/
def rawIterFuel : Nat → List Nat → Nat → Except String (List RawOp)
  | _, [], _ => .ok []
  | 0, _ :: _, _ => .error "out of fuel"
  | f + 1, b :: rest, idx =>
    if 0x4e < b then
      (rawIterFuel f rest (idx + 1)).map (fun tail => (b, none, idx) :: tail)
    else if b < 0x4c then
      if rest.length < b then .error "PUSHDATA: truncated data"
      else (rawIterFuel f (rest.drop b) (idx + 1 + b)).map
        (fun tail => (b, some (rest.take b), idx) :: tail)
    else if b = 0x4c then
      if rest.length < 1 then .error "PUSHDATA1: missing data length"
      else if (rest.drop 1).length < rest.getD 0 0 then
        .error "PUSHDATA1: truncated data"
      else (rawIterFuel f ((rest.drop 1).drop (rest.getD 0 0)) (idx + 2 + rest.getD 0 0)).map
        (fun tail => (b, some ((rest.drop 1).take (rest.getD 0 0)), idx) :: tail)
    else if b = 0x4d then
      if rest.length < 2 then .error "PUSHDATA2: missing data length"
      else if (rest.drop 2).length < rest.getD 0 0 + rest.getD 1 0 * 256 then
        .error "PUSHDATA2: truncated data"
      else (rawIterFuel f ((rest.drop 2).drop (rest.getD 0 0 + rest.getD 1 0 * 256))
              (idx + 3 + (rest.getD 0 0 + rest.getD 1 0 * 256))).map
        (fun tail => (b, some ((rest.drop 2).take (rest.getD 0 0 + rest.getD 1 0 * 256)), idx) :: tail)
    else
      if rest.length < 4 then .error "PUSHDATA4: missing data length"
      else if (rest.drop 4).length <
          rest.getD 0 0 + rest.getD 1 0 * 256 + rest.getD 2 0 * 65536 + rest.getD 3 0 * 16777216 then
        .error "PUSHDATA4: truncated data"
      else (rawIterFuel f ((rest.drop 4).drop
              (rest.getD 0 0 + rest.getD 1 0 * 256 + rest.getD 2 0 * 65536 + rest.getD 3 0 * 16777216))
              (idx + 5 + (rest.getD 0 0 + rest.getD 1 0 * 256 + rest.getD 2 0 * 65536 + rest.getD 3 0 * 16777216))).map
        (fun tail => (b, some ((rest.drop 4).take
              (rest.getD 0 0 + rest.getD 1 0 * 256 + rest.getD 2 0 * 65536 + rest.getD 3 0 * 16777216)), idx) :: tail)

/-- `CScript.raw_iter`, started at byte offset `idx` of the script. -/
def rawIter (l : List Nat) (idx : Nat) : Except String (List RawOp) :=
  rawIterFuel l.length l idx

/-- A value produced by cooked iteration (`CScript.__iter__`). -/
inductive CookedItem where
  | num (n : Nat)
  | data (d : List Nat)
  | op (b : Nat)
deriving DecidableEq

/-- `CScript.__iter__`: cooked iteration over a script. -/
def cookedIter (l : List Nat) : Except String (List CookedItem) :=
  (rawIter l 0).map (List.map (fun x =>
    if x.1 = 0 then .num 0
    else
      match x.2.1 with
      | some d => .data d
      | none =>
        if is_small_int x.1 then .num ((decode_op_n x.1).getD 0)
        else .op x.1))

/-- `CScript.is_valid`: cooked iteration (`list(self)`) completes without a
`CScriptInvalidError`. -/
def is_valid (l : List Nat) : Bool :=
  match cookedIter l with
  | .error _ => false
  | .ok _ => true

/-- `CScript.is_push_only`. -/
def is_push_only (l : List Nat) : Bool :=
  match rawIter l 0 with
  | .error _ => false
  | .ok ops => ops.all (fun x => decide (x.1 ≤ 0x60))

/-- The per-operation canonicality test inside
`CScript.has_canonical_pushes` (its loop body). -/
def canonPred (x : RawOp) : Bool :=
  if 0x60 < x.1 then true
  else if x.1 < 0x4c ∧ 0x00 < x.1 ∧ (x.2.1.getD []).length = 1 ∧
      (x.2.1.getD []).headD 0 ≤ 16 then false
  else if x.1 = 0x4c ∧ (x.2.1.getD []).length < 0x4c then false
  else if x.1 = 0x4d ∧ (x.2.1.getD []).length ≤ 0xff then false
  else if x.1 = 0x4e ∧ (x.2.1.getD []).length ≤ 0xffff then false
  else true

/-- `CScript.has_canonical_pushes`. -/
def has_canonical_pushes (l : List Nat) : Bool :=
  match rawIter l 0 with
  | .error _ => false
  | .ok ops => ops.all canonPred

/-- `CScript.is_p2sh`. -/
def is_p2sh (l : List Nat) : Bool :=
  decide (l.length = 23) && decide (l.getD 0 0 = 0xa9) &&
  decide (l.getD 1 0 = 0x14) && decide (l.getD 22 0 = 0x87)

/-- Signed reading of a byte, as `struct.unpack` with format `b` does. -/
def sbyte (b : Nat) : Int :=
  if b < 0x80 then (b : Int) else (b : Int) - 256

/-- `CScript.is_witness_scriptpubkey`.  The source reads the first two
bytes with `struct.unpack` format `bb` (signed); a negative first byte passed to
`CScriptOp` indexes the 256-entry instance table from the end, which lands
back on the original byte, so the small-int test sees the unsigned byte. -/
def is_witness_scriptpubkey (l : List Nat) : Bool :=
  if l.length < 4 ∨ 42 < l.length then false
  else if !is_small_int (l.getD 0 0) then false
  else decide (sbyte (l.getD 1 0) + 2 = (l.length : Int))

/-- The loop of `FindAndDelete`, over the raw operations of `script`.
State: accumulated output `r`, `last_sop_idx`, and the `skip` flag
(initially true). -/
def fadLoop (script sig : List Nat) :
    List RawOp → List Nat → Nat → Bool → List Nat
  | [], r, last, skip =>
    if skip then r else r ++ script.drop last
  | x :: rest, r, last, skip =>
    let r' := if skip then r else r ++ (script.drop last).take (x.2.2 - last)
    let skip' := (script.drop x.2.2).take sig.length == sig
    fadLoop script sig rest r' x.2.2 skip'

/-- `FindAndDelete(script, sig)`; a `CScriptInvalidError` raised by raw
iteration propagates. -/
def FindAndDelete (script sig : List Nat) : Except String (List Nat) :=
  (rawIter script 0).map (fun ops => fadLoop script sig ops [] 0 true)

/-- The loop of `CScript.GetSigOpCount`, over raw operations.  On the
accurate CHECKMULTISIG path the source executes `opcode.decode_op_n()`:
it decodes the current opcode (OP_CHECKMULTISIG / ...VERIFY, which is not
an OP_N — and is a plain `int` lacking the method), so that path raises;
the `.error` arm models that exception. -/
def sigOpLoop (fAccurate : Bool) : List RawOp → Nat → Nat → Except String Nat
  | [], n, _ => .ok n
  | x :: rest, n, lastOpcode =>
    if x.1 = 0xac ∨ x.1 = 0xad then
      sigOpLoop fAccurate rest (n + 1) x.1
    else if x.1 = 0xae ∨ x.1 = 0xaf then
      if fAccurate ∧ 0x51 ≤ lastOpcode ∧ lastOpcode ≤ 0x60 then
        match decode_op_n x.1 with
        | some k => sigOpLoop fAccurate rest (n + k) x.1
        | none => .error "decode_op_n: op is not an OP_N"
      else sigOpLoop fAccurate rest (n + 20) x.1
    else sigOpLoop fAccurate rest n x.1

/-- `CScript.GetSigOpCount`; `lastOpcode` starts as `OP_INVALIDOPCODE`. -/
def GetSigOpCount (l : List Nat) (fAccurate : Bool) : Except String Nat :=
  match rawIter l 0 with
  | .error e => .error e
  | .ok ops => sigOpLoop fAccurate ops 0 0xff

/-- The `OPCODE_NAMES` table, as the entries appear in the source's
`OPCODE_NAMES.update({...})` call (aliases such as
`OP_CHECKLOCKTIMEVERIFY = OP_NOP2` repeat a byte key; dict semantics keep
the later entry). -/
def OPCODE_NAMES : List (Nat × String) := [
  (0x00, "OP_0"),
  (0x4c, "OP_PUSHDATA1"),
  (0x4d, "OP_PUSHDATA2"),
  (0x4e, "OP_PUSHDATA4"),
  (0x4f, "OP_1NEGATE"),
  (0x50, "OP_RESERVED"),
  (0x51, "OP_1"),
  (0x52, "OP_2"),
  (0x53, "OP_3"),
  (0x54, "OP_4"),
  (0x55, "OP_5"),
  (0x56, "OP_6"),
  (0x57, "OP_7"),
  (0x58, "OP_8"),
  (0x59, "OP_9"),
  (0x5a, "OP_10"),
  (0x5b, "OP_11"),
  (0x5c, "OP_12"),
  (0x5d, "OP_13"),
  (0x5e, "OP_14"),
  (0x5f, "OP_15"),
  (0x60, "OP_16"),
  (0x61, "OP_NOP"),
  (0x62, "OP_VER"),
  (0x63, "OP_IF"),
  (0x64, "OP_NOTIF"),
  (0x65, "OP_VERIF"),
  (0x66, "OP_VERNOTIF"),
  (0x67, "OP_ELSE"),
  (0x68, "OP_ENDIF"),
  (0x69, "OP_VERIFY"),
  (0x6a, "OP_RETURN"),
  (0x6b, "OP_TOALTSTACK"),
  (0x6c, "OP_FROMALTSTACK"),
  (0x6d, "OP_2DROP"),
  (0x6e, "OP_2DUP"),
  (0x6f, "OP_3DUP"),
  (0x70, "OP_2OVER"),
  (0x71, "OP_2ROT"),
  (0x72, "OP_2SWAP"),
  (0x73, "OP_IFDUP"),
  (0x74, "OP_DEPTH"),
  (0x75, "OP_DROP"),
  (0x76, "OP_DUP"),
  (0x77, "OP_NIP"),
  (0x78, "OP_OVER"),
  (0x79, "OP_PICK"),
  (0x7a, "OP_ROLL"),
  (0x7b, "OP_ROT"),
  (0x7c, "OP_SWAP"),
  (0x7d, "OP_TUCK"),
  (0x7e, "OP_CAT"),
  (0x7f, "OP_SUBSTR"),
  (0x80, "OP_LEFT"),
  (0x81, "OP_RIGHT"),
  (0x82, "OP_SIZE"),
  (0x83, "OP_INVERT"),
  (0x84, "OP_AND"),
  (0x85, "OP_OR"),
  (0x86, "OP_XOR"),
  (0x87, "OP_EQUAL"),
  (0x88, "OP_EQUALVERIFY"),
  (0x89, "OP_RESERVED1"),
  (0x8a, "OP_RESERVED2"),
  (0x8b, "OP_1ADD"),
  (0x8c, "OP_1SUB"),
  (0x8d, "OP_2MUL"),
  (0x8e, "OP_2DIV"),
  (0x8f, "OP_NEGATE"),
  (0x90, "OP_ABS"),
  (0x91, "OP_NOT"),
  (0x92, "OP_0NOTEQUAL"),
  (0x93, "OP_ADD"),
  (0x94, "OP_SUB"),
  (0x95, "OP_MUL"),
  (0x96, "OP_DIV"),
  (0x97, "OP_MOD"),
  (0x98, "OP_LSHIFT"),
  (0x99, "OP_RSHIFT"),
  (0x9a, "OP_BOOLAND"),
  (0x9b, "OP_BOOLOR"),
  (0x9c, "OP_NUMEQUAL"),
  (0x9d, "OP_NUMEQUALVERIFY"),
  (0x9e, "OP_NUMNOTEQUAL"),
  (0x9f, "OP_LESSTHAN"),
  (0xa0, "OP_GREATERTHAN"),
  (0xa1, "OP_LESSTHANOREQUAL"),
  (0xa2, "OP_GREATERTHANOREQUAL"),
  (0xa3, "OP_MIN"),
  (0xa4, "OP_MAX"),
  (0xa5, "OP_WITHIN"),
  (0xa6, "OP_RIPEMD160"),
  (0xa7, "OP_SHA1"),
  (0xa8, "OP_SHA256"),
  (0xa9, "OP_HASH160"),
  (0xaa, "OP_HASH256"),
  (0xab, "OP_CODESEPARATOR"),
  (0xac, "OP_CHECKSIG"),
  (0xad, "OP_CHECKSIGVERIFY"),
  (0xae, "OP_CHECKMULTISIG"),
  (0xaf, "OP_CHECKMULTISIGVERIFY"),
  (0xb0, "OP_NOP1"),
  (0xb1, "OP_NOP2"),
  (0xb1, "OP_CHECKLOCKTIMEVERIFY"),
  (0xb2, "OP_NOP3"),
  (0xb2, "OP_CHECKSEQUENCEVERIFY"),
  (0xb3, "OP_NOP4"),
  (0xb4, "OP_NOP5"),
  (0xb5, "OP_NOP6"),
  (0xb6, "OP_NOP7"),
  (0xb7, "OP_NOP8"),
  (0xb8, "OP_NOP9"),
  (0xb9, "OP_NOP10"),
  (0xfa, "OP_SMALLINTEGER"),
  (0xfb, "OP_PUBKEYS"),
  (0xfd, "OP_PUBKEYHASH"),
  (0xfe, "OP_PUBKEY"),
  (0xff, "OP_INVALIDOPCODE"),
  (0xc0, "OP_EVR_ASSET")]

/-- The `OPCODES_BY_NAME` table, in source order. -/
def OPCODES_BY_NAME : List (String × Nat) := [
  ("OP_0", 0x00),
  ("OP_PUSHDATA1", 0x4c),
  ("OP_PUSHDATA2", 0x4d),
  ("OP_PUSHDATA4", 0x4e),
  ("OP_1NEGATE", 0x4f),
  ("OP_RESERVED", 0x50),
  ("OP_1", 0x51),
  ("OP_2", 0x52),
  ("OP_3", 0x53),
  ("OP_4", 0x54),
  ("OP_5", 0x55),
  ("OP_6", 0x56),
  ("OP_7", 0x57),
  ("OP_8", 0x58),
  ("OP_9", 0x59),
  ("OP_10", 0x5a),
  ("OP_11", 0x5b),
  ("OP_12", 0x5c),
  ("OP_13", 0x5d),
  ("OP_14", 0x5e),
  ("OP_15", 0x5f),
  ("OP_16", 0x60),
  ("OP_NOP", 0x61),
  ("OP_VER", 0x62),
  ("OP_IF", 0x63),
  ("OP_NOTIF", 0x64),
  ("OP_VERIF", 0x65),
  ("OP_VERNOTIF", 0x66),
  ("OP_ELSE", 0x67),
  ("OP_ENDIF", 0x68),
  ("OP_VERIFY", 0x69),
  ("OP_RETURN", 0x6a),
  ("OP_TOALTSTACK", 0x6b),
  ("OP_FROMALTSTACK", 0x6c),
  ("OP_2DROP", 0x6d),
  ("OP_2DUP", 0x6e),
  ("OP_3DUP", 0x6f),
  ("OP_2OVER", 0x70),
  ("OP_2ROT", 0x71),
  ("OP_2SWAP", 0x72),
  ("OP_IFDUP", 0x73),
  ("OP_DEPTH", 0x74),
  ("OP_DROP", 0x75),
  ("OP_DUP", 0x76),
  ("OP_NIP", 0x77),
  ("OP_OVER", 0x78),
  ("OP_PICK", 0x79),
  ("OP_ROLL", 0x7a),
  ("OP_ROT", 0x7b),
  ("OP_SWAP", 0x7c),
  ("OP_TUCK", 0x7d),
  ("OP_CAT", 0x7e),
  ("OP_SUBSTR", 0x7f),
  ("OP_LEFT", 0x80),
  ("OP_RIGHT", 0x81),
  ("OP_SIZE", 0x82),
  ("OP_INVERT", 0x83),
  ("OP_AND", 0x84),
  ("OP_OR", 0x85),
  ("OP_XOR", 0x86),
  ("OP_EQUAL", 0x87),
  ("OP_EQUALVERIFY", 0x88),
  ("OP_RESERVED1", 0x89),
  ("OP_RESERVED2", 0x8a),
  ("OP_1ADD", 0x8b),
  ("OP_1SUB", 0x8c),
  ("OP_2MUL", 0x8d),
  ("OP_2DIV", 0x8e),
  ("OP_NEGATE", 0x8f),
  ("OP_ABS", 0x90),
  ("OP_NOT", 0x91),
  ("OP_0NOTEQUAL", 0x92),
  ("OP_ADD", 0x93),
  ("OP_SUB", 0x94),
  ("OP_MUL", 0x95),
  ("OP_DIV", 0x96),
  ("OP_MOD", 0x97),
  ("OP_LSHIFT", 0x98),
  ("OP_RSHIFT", 0x99),
  ("OP_BOOLAND", 0x9a),
  ("OP_BOOLOR", 0x9b),
  ("OP_NUMEQUAL", 0x9c),
  ("OP_NUMEQUALVERIFY", 0x9d),
  ("OP_NUMNOTEQUAL", 0x9e),
  ("OP_LESSTHAN", 0x9f),
  ("OP_GREATERTHAN", 0xa0),
  ("OP_LESSTHANOREQUAL", 0xa1),
  ("OP_GREATERTHANOREQUAL", 0xa2),
  ("OP_MIN", 0xa3),
  ("OP_MAX", 0xa4),
  ("OP_WITHIN", 0xa5),
  ("OP_RIPEMD160", 0xa6),
  ("OP_SHA1", 0xa7),
  ("OP_SHA256", 0xa8),
  ("OP_HASH160", 0xa9),
  ("OP_HASH256", 0xaa),
  ("OP_CODESEPARATOR", 0xab),
  ("OP_CHECKSIG", 0xac),
  ("OP_CHECKSIGVERIFY", 0xad),
  ("OP_CHECKMULTISIG", 0xae),
  ("OP_CHECKMULTISIGVERIFY", 0xaf),
  ("OP_NOP1", 0xb0),
  ("OP_NOP2", 0xb1),
  ("OP_CHECKLOCKTIMEVERIFY", 0xb1),
  ("OP_NOP3", 0xb2),
  ("OP_CHECKSEQUENCEVERIFY", 0xb2),
  ("OP_NOP4", 0xb3),
  ("OP_NOP5", 0xb4),
  ("OP_NOP6", 0xb5),
  ("OP_NOP7", 0xb6),
  ("OP_NOP8", 0xb7),
  ("OP_NOP9", 0xb8),
  ("OP_NOP10", 0xb9),
  ("OP_SMALLINTEGER", 0xfa),
  ("OP_PUBKEYS", 0xfb),
  ("OP_PUBKEYHASH", 0xfd),
  ("OP_PUBKEY", 0xfe),
  ("OP_EVR_ASSET", 0xc0)]

/-- Python dict lookup over an entry list: later entries for the same key
overwrite earlier ones. -/
def dictGetN (tbl : List (Nat × String)) (k : Nat) : Option String :=
  tbl.foldl (fun acc p => if p.1 = k then some p.2 else acc) none

/-- Python dict lookup over an entry list, string keys. -/
def dictGetS (tbl : List (String × Nat)) (k : String) : Option Nat :=
  tbl.foldl (fun acc p => if p.1 = k then some p.2 else acc) none

/-- An item accepted by the `CScript` builder (`__coerce_instance`):
a `CScriptOp`, an integer, or a byte sequence. -/
inductive ScriptItem where
  | opcode (b : Nat)
  | int (n : Int)
  | bytes (d : List Nat)

/-- Little-endian byte expansion of a natural number, least significant
byte first, no trailing zero bytes (`m` itself is enough fuel since the
value shrinks by a factor of 256 each step). -/
def natLEAux : Nat → Nat → List Nat
  | 0, _ => []
  | f + 1, m => if m = 0 then [] else m % 256 :: natLEAux f (m / 256)

/-- Little-endian minimal byte expansion of a natural number. -/
def natLE (m : Nat) : List Nat :=
  natLEAux m m

/-- Modelled from the spec: `evrmore.core._bignum.bn2vch` (the module is
not part of the sources here).  Minimal signed magnitude: little-endian
absolute value, with a sign byte appended when the high byte already has
bit 0x80 set, else the sign folded into the high byte. -/
def bn2vch (n : Int) : List Nat :=
  let mag := natLE n.natAbs
  if mag = [] then []
  else if 0x80 ≤ mag.getLastD 0 then mag ++ [if n < 0 then 0x80 else 0x00]
  else if n < 0 then mag.dropLast ++ [mag.getLastD 0 + 0x80]
  else mag

/-- `CScript.__coerce_instance`: an opcode keeps its byte (`none` models
the failure of `CScriptOp` construction outside a byte); an integer in
`[0, 16]` goes through `encode_op_n`; `-1` becomes `OP_1NEGATE`; any
other integer is pushed as `bn2vch`; a byte sequence is pushed via
`encode_op_pushdata`. -/
def coerceInstance : ScriptItem → Option (List Nat)
  | .opcode b => if b ≤ 0xff then some [b] else none
  | .int n =>
    if 0 ≤ n ∧ n ≤ 16 then (encode_op_n n.toNat).map (fun b => [b])
    else if n = -1 then some [0x4f]
    else encode_op_pushdata (bn2vch n)
  | .bytes d => encode_op_pushdata d

/-- `CScript.__new__` on an iterable of items: coerce each and
concatenate. -/
def buildScript : List ScriptItem → Option (List Nat)
  | [] => some []
  | it :: rest =>
    match coerceInstance it, buildScript rest with
    | some frag, some s => some (frag ++ s)
    | _, _ => none

/-- `CScript.to_p2sh_scriptPubKey`, with the 20-byte `Hash160`
collaborator as a parameter; the `.error` arm is the `ValueError` for an
oversized redeem script. -/
def to_p2sh_scriptPubKey (hash160 : List Nat → List Nat) (l : List Nat)
    (checksize : Bool) : Except String (List Nat) :=
  if checksize ∧ MAX_SCRIPT_ELEMENT_SIZE < l.length then
    .error "redeemScript exceeds max allowed size; P2SH output would be unspendable"
  else
    match buildScript [.opcode 0xa9, .bytes (hash160 l), .opcode 0x87] with
    | some s => .ok s
    | none => .error "unreachable: Hash160 output is 20 bytes"

/-- A transaction input as the signature-hash engine consumes it
(spec section 6): a serializable `prevout` (kept as its serialized
bytes, opaque to this module), a `scriptSig`, and `nSequence`. -/
structure CTxIn where
  prevout : List Nat
  scriptSig : List Nat
  nSequence : Nat

/-- A transaction output: value and scriptPubKey. -/
structure CTxOut where
  nValue : Int
  scriptPubKey : List Nat

/-- Modelled from the spec: the default `CTxOut()` used to left-pad the
output vector in the SIGHASH_SINGLE case has value `-1` and an empty
script. -/
def defaultCTxOut : CTxOut := { nValue := -1, scriptPubKey := [] }

/-- A default input, used only as the `getD` fallback behind
bounds-checked accesses. -/
def defaultCTxIn : CTxIn := { prevout := [], scriptSig := [], nSequence := 0 }

/-- The transaction view consumed by the signature-hash engine.  `wit`
is the witness data (a stack of byte strings per input); clearing it is
the only operation the core performs on it. -/
structure CTx where
  nVersion : Int
  vin : List CTxIn
  vout : List CTxOut
  nLockTime : Nat
  wit : List (List (List Nat))

/-- Four little-endian bytes of `n` (as `struct.pack` with `<i`/`<I`
writes a 32-bit value). -/
def pack32LE (n : Nat) : List Nat :=
  [n % 256, n / 256 % 256, n / 65536 % 256, n / 16777216 % 256]

/-- Eight little-endian bytes of `n`. -/
def pack64LE (n : Nat) : List Nat :=
  pack32LE (n % 4294967296) ++ pack32LE (n / 4294967296)

/-- `struct.pack` with `<q`: a signed 64-bit value, two's complement. -/
def packi64 (v : Int) : List Nat :=
  pack64LE ((v % 18446744073709551616).toNat)

/-- `struct.pack` with `<i`: a signed 32-bit value, two's complement. -/
def packi32 (v : Int) : List Nat :=
  pack32LE ((v % 4294967296).toNat)

/-- Modelled from the spec: the var-int byte serializer
(`BytesSerializer` of the serialize module, which is not among the
sources): Bitcoin CompactSize length prefix followed by the bytes. -/
def bytesSerialize (s : List Nat) : List Nat :=
  (if s.length < 253 then [s.length]
   else if s.length ≤ 0xffff then 0xfd :: s.length % 256 :: [s.length / 256]
   else if s.length ≤ 0xffffffff then 0xfe :: pack32LE s.length
   else 0xff :: pack64LE s.length) ++ s

/-- The 32-byte sentinel digest `01 00 ... 00` (`HASH_ONE`). -/
def HASH_ONE : List Nat := 1 :: List.replicate 31 0

/-- Tail of `RawSignatureHash` after the per-hashtype edits: restrict
`vin` under `SIGHASH_ANYONECANPAY`, clear the witness, serialize, append
the hashtype as four little-endian bytes, and hash.  The second
component of the result is the transaction object the caller retains. -/
def rawSigHashFinish (Hash : List Nat → List Nat) (ser : CTx → List Nat)
    (txtmp : CTx) (txTo : CTx) (inIdx : Nat) (hashtype : Nat) :
    Except String ((List Nat × Option String) × CTx) :=
  let t1 := if hashtype &&& 0x80 ≠ 0 then
              { txtmp with vin := [txtmp.vin.getD inIdx defaultCTxIn] }
            else txtmp
  let t2 := { t1 with wit := [] }
  .ok ((Hash (ser t2 ++ pack32LE hashtype), none), txTo)

/-- Steps 1-2 of the legacy procedure, applied to the deep copy `txtmp`
of the caller's transaction (`CMutableTransaction.from_tx`; the class
lives in `evrmore.core`, outside these sources, and is modelled from the
spec as a value copy): clear every scriptSig, then set the signed
input's scriptSig to the `FindAndDelete` result `fd`. -/
def rshClear (txtmp : CTx) (fd : List Nat) (inIdx : Nat) : CTx :=
  let t1 := { txtmp with
    vin := txtmp.vin.map (fun txin : CTxIn => { txin with scriptSig := [] }) }
  { t1 with
    vin := t1.vin.set inIdx { t1.vin.getD inIdx defaultCTxIn with scriptSig := fd } }

/-- Zero the `nSequence` of every input other than the signed one (the
`SIGHASH_NONE` / `SIGHASH_SINGLE` loop). -/
def rshZeroSeq (txtmp : CTx) (inIdx : Nat) : CTx :=
  { txtmp with
    vin := txtmp.vin.mapIdx (fun i (txin : CTxIn) =>
      if i = inIdx then txin else { txin with nSequence := 0 }) }

/-- The per-hashtype edits of the legacy procedure (step 3 on), given
the `FindAndDelete` result `fd`. -/
def rawSigHashBody (Hash : List Nat → List Nat) (ser : CTx → List Nat)
    (txTo : CTx) (inIdx : Nat) (hashtype : Nat) (fd : List Nat) :
    Except String ((List Nat × Option String) × CTx) :=
  if hashtype &&& 0x1f = 2 then
    rawSigHashFinish Hash ser
      (rshZeroSeq { rshClear txTo fd inIdx with vout := [] } inIdx)
      txTo inIdx hashtype
  else if hashtype &&& 0x1f = 3 then
    if (rshClear txTo fd inIdx).vout.length ≤ inIdx then
      .ok ((HASH_ONE, some ("outIdx " ++ toString inIdx ++ " out of range (" ++
            toString (rshClear txTo fd inIdx).vout.length ++ ")")), txTo)
    else
      rawSigHashFinish Hash ser
        (rshZeroSeq { rshClear txTo fd inIdx with
          vout := List.replicate inIdx defaultCTxOut ++
                  [(rshClear txTo fd inIdx).vout.getD inIdx defaultCTxOut] } inIdx)
        txTo inIdx hashtype
  else
    rawSigHashFinish Hash ser (rshClear txTo fd inIdx) txTo inIdx hashtype

/-- `RawSignatureHash`, with the double-SHA256 `Hash` and the external
full-transaction serializer as parameters.  All edits act on the copy
(`rshClear`/`rshZeroSeq`/`rawSigHashFinish` stages); the second
component of the result is the object the caller keeps.  The
`FindAndDelete` call is hoisted above the copy; it reads only `script`,
so the order is unobservable. -/
def RawSignatureHashSt (Hash : List Nat → List Nat) (ser : CTx → List Nat)
    (script : List Nat) (txTo : CTx) (inIdx : Nat) (hashtype : Nat) :
    Except String ((List Nat × Option String) × CTx) :=
  if txTo.vin.length ≤ inIdx then
    .ok ((HASH_ONE, some ("inIdx " ++ toString inIdx ++ " out of range (" ++
          toString txTo.vin.length ++ ")")), txTo)
  else
    match FindAndDelete script [0xab] with
    | .error e => .error e
    | .ok fd => rawSigHashBody Hash ser txTo inIdx hashtype fd

/-- `RawSignatureHash`: the digest/error-tag pair. -/
def RawSignatureHash (Hash : List Nat → List Nat) (ser : CTx → List Nat)
    (script : List Nat) (txTo : CTx) (inIdx : Nat) (hashtype : Nat) :
    Except String (List Nat × Option String) :=
  (RawSignatureHashSt Hash ser script txTo inIdx hashtype).map (fun p => p.1)

/-- BIP-143 `hashPrevouts`: 32 zero bytes when ANYONECANPAY is set. -/
def segwitHashPrevouts (Hash : List Nat → List Nat) (txTo : CTx)
    (hashtype : Nat) : List Nat :=
  if hashtype &&& 0x80 = 0 then Hash ((txTo.vin.map (fun i => i.prevout)).flatten)
  else List.replicate 32 0

/-- BIP-143 `hashSequence`: 32 zero bytes when ANYONECANPAY, SINGLE or
NONE is in effect. -/
def segwitHashSequence (Hash : List Nat → List Nat) (txTo : CTx)
    (hashtype : Nat) : List Nat :=
  if hashtype &&& 0x80 = 0 ∧ hashtype &&& 0x1f ≠ 3 ∧ hashtype &&& 0x1f ≠ 2 then
    Hash ((txTo.vin.map (fun i => pack32LE i.nSequence)).flatten)
  else List.replicate 32 0

/-- BIP-143 `hashOutputs`, with the external per-output serializer as a
parameter. -/
def segwitHashOutputs (Hash : List Nat → List Nat) (serOut : CTxOut → List Nat)
    (txTo : CTx) (inIdx : Nat) (hashtype : Nat) : List Nat :=
  if hashtype &&& 0x1f ≠ 3 ∧ hashtype &&& 0x1f ≠ 2 then
    Hash ((txTo.vout.map serOut).flatten)
  else if hashtype &&& 0x1f = 3 ∧ inIdx < txTo.vout.length then
    Hash (serOut (txTo.vout.getD inIdx defaultCTxOut))
  else List.replicate 32 0

/-- The BIP-143 preimage assembled by the `SIGVERSION_WITNESS_V0` branch
of `SignatureHash`. -/
def segwitPreimage (Hash : List Nat → List Nat) (serOut : CTxOut → List Nat)
    (script : List Nat) (txTo : CTx) (inIdx : Nat) (hashtype : Nat)
    (amount : Int) : List Nat :=
  packi32 txTo.nVersion ++
  segwitHashPrevouts Hash txTo hashtype ++
  segwitHashSequence Hash txTo hashtype ++
  (txTo.vin.getD inIdx defaultCTxIn).prevout ++
  bytesSerialize script ++
  packi64 amount ++
  pack32LE (txTo.vin.getD inIdx defaultCTxIn).nSequence ++
  segwitHashOutputs Hash serOut txTo inIdx hashtype ++
  pack32LE txTo.nLockTime ++
  pack32LE hashtype

/-- The cooked `SignatureHash` wrapper.  `sigversion = 1` is
`SIGVERSION_WITNESS_V0`; the base path asserts the script is not a
witness scriptPubKey and turns the raw error tag into a raised
`ValueError`.  The first `.error` arm of the witness path is the
`IndexError` from `txTo.vin[inIdx]`. -/
def SignatureHash (Hash : List Nat → List Nat) (ser : CTx → List Nat)
    (serOut : CTxOut → List Nat) (script : List Nat) (txTo : CTx)
    (inIdx : Nat) (hashtype : Nat) (amount : Int) (sigversion : Nat) :
    Except String (List Nat) :=
  if sigversion = 1 then
    if txTo.vin.length ≤ inIdx then .error "IndexError: vin index out of range"
    else .ok (Hash (segwitPreimage Hash serOut script txTo inIdx hashtype amount))
  else
    if is_witness_scriptpubkey script then
      .error "AssertionError: script is a witness scriptPubKey"
    else
      match RawSignatureHash Hash ser script txTo inIdx hashtype with
      | .error e => .error e
      | .ok (_, some err) => .error err
      | .ok (h, none) => .ok h

/-! ### Infrastructure lemmas about raw iteration -/

theorem rawIterFuel_add (f k : Nat) :
    ∀ (l : List Nat) (idx : Nat), l.length ≤ f →
      rawIterFuel (f + k) l idx = rawIterFuel f l idx := by
  induction f with
  | zero =>
    intro l idx h
    have : l = [] := List.length_eq_zero.mp (Nat.le_zero.mp h)
    subst this
    cases k <;> rfl
  | succ f ih =>
    intro l idx h
    cases l with
    | nil => cases f + 1 + k <;> rfl
    | cons b rest =>
      have hr : rest.length ≤ f := by simpa using h
      have hshape : f + 1 + k = (f + k) + 1 := by omega
      rw [hshape]
      simp only [rawIterFuel]
      have hdrop : ∀ (m : Nat) (l2 : List Nat), (l2.drop m).length ≤ l2.length := by
        intro m l2; simp [List.length_drop]
      by_cases h1 : 0x4e < b
      · simp only [if_pos h1, ih rest (idx + 1) hr]
      · simp only [if_neg h1]
        by_cases h2 : b < 0x4c
        · simp only [if_pos h2]
          by_cases h3 : rest.length < b
          · simp only [if_pos h3]
          · simp only [if_neg h3, ih (rest.drop b) (idx + 1 + b) (le_trans (hdrop b rest) hr)]
        · simp only [if_neg h2]
          by_cases h4 : b = 0x4c
          · simp only [if_pos h4]
            by_cases h5 : rest.length < 1
            · simp only [if_pos h5]
            · simp only [if_neg h5]
              by_cases h6 : (rest.drop 1).length < rest.getD 0 0
              · simp only [if_pos h6]
              · simp only [if_neg h6,
                  ih ((rest.drop 1).drop (rest.getD 0 0)) _
                    (le_trans (le_trans (hdrop _ _) (hdrop 1 rest)) hr)]
          · simp only [if_neg h4]
            by_cases h7 : b = 0x4d
            · simp only [if_pos h7]
              by_cases h5 : rest.length < 2
              · simp only [if_pos h5]
              · simp only [if_neg h5]
                by_cases h6 : (rest.drop 2).length < rest.getD 0 0 + rest.getD 1 0 * 256
                · simp only [if_pos h6]
                · simp only [if_neg h6,
                    ih ((rest.drop 2).drop (rest.getD 0 0 + rest.getD 1 0 * 256)) _
                      (le_trans (le_trans (hdrop _ _) (hdrop 2 rest)) hr)]
            · simp only [if_neg h7]
              by_cases h5 : rest.length < 4
              · simp only [if_pos h5]
              · simp only [if_neg h5]
                by_cases h6 : (rest.drop 4).length <
                    rest.getD 0 0 + rest.getD 1 0 * 256 + rest.getD 2 0 * 65536 + rest.getD 3 0 * 16777216
                · simp only [if_pos h6]
                · simp only [if_neg h6,
                    ih ((rest.drop 4).drop
                        (rest.getD 0 0 + rest.getD 1 0 * 256 + rest.getD 2 0 * 65536 + rest.getD 3 0 * 16777216)) _
                      (le_trans (le_trans (hdrop _ _) (hdrop 4 rest)) hr)]

theorem rawIterFuel_eq_rawIter (f : Nat) (l : List Nat) (idx : Nat)
    (h : l.length ≤ f) : rawIterFuel f l idx = rawIter l idx := by
  have h2 := rawIterFuel_add l.length (f - l.length) l idx le_rfl
  rw [rawIter, ← h2]
  congr 1
  omega

theorem rawIter_nil (idx : Nat) : rawIter [] idx = .ok [] := rfl

theorem rawIter_cons_op (b : Nat) (hb : 0x4e < b) (tail : List Nat) (idx : Nat) :
    rawIter (b :: tail) idx =
      (rawIter tail (idx + 1)).map (fun t => (b, none, idx) :: t) := by
  show rawIterFuel (b :: tail).length (b :: tail) idx = _
  simp only [List.length_cons, rawIterFuel, if_pos hb]
  rfl

theorem rawIter_cons_push (d enc : List Nat) (henc : encode_op_pushdata d = some enc)
    (tail : List Nat) (idx : Nat) :
    rawIter (enc ++ tail) idx =
      (rawIter tail (idx + enc.length)).map (fun t => (enc.headD 0, some d, idx) :: t) := by
  unfold encode_op_pushdata at henc
  split_ifs at henc with hc1 hc2 hc3 hc4
  · -- direct push
    have he : enc = d.length :: d := (Option.some.inj henc).symm
    subst he
    show rawIterFuel (d.length :: (d ++ tail)).length (d.length :: (d ++ tail)) idx = _
    simp only [List.length_cons, rawIterFuel]
    rw [if_neg (by omega), if_pos hc1, if_neg (by simp)]
    rw [List.take_left, List.drop_left,
        rawIterFuel_eq_rawIter _ tail _ (by simp only [List.length_append]; omega),
        show idx + 1 + d.length = idx + (d.length :: d).length by simp; omega]
    rfl
  · -- OP_PUSHDATA1
    have he : enc = 0x4c :: d.length :: d := (Option.some.inj henc).symm
    subst he
    show rawIterFuel (0x4c :: d.length :: (d ++ tail)).length
        (0x4c :: d.length :: (d ++ tail)) idx = _
    simp only [List.length_cons, rawIterFuel]
    rw [if_neg (by omega), if_neg (by omega), if_pos trivial, if_neg (by simp)]
    simp only [List.getD_cons_zero, List.drop_succ_cons, List.drop_zero]
    rw [if_neg (by simp)]
    rw [List.take_left, List.drop_left,
        rawIterFuel_eq_rawIter _ tail _ (by simp only [List.length_append]; omega),
        show idx + 2 + d.length = idx + (0x4c :: d.length :: d).length by simp; omega]
    rfl
  · -- OP_PUSHDATA2
    have he : enc = 0x4d :: d.length % 256 :: d.length / 256 :: d := (Option.some.inj henc).symm
    subst he
    have hn : d.length % 256 + d.length / 256 * 256 = d.length := by omega
    show rawIterFuel (0x4d :: d.length % 256 :: d.length / 256 :: (d ++ tail)).length
        (0x4d :: d.length % 256 :: d.length / 256 :: (d ++ tail)) idx = _
    simp only [List.length_cons, rawIterFuel]
    rw [if_neg (by omega), if_neg (by omega), if_neg (by omega), if_pos trivial, if_neg (by simp)]
    simp only [List.getD_cons_zero, List.getD_cons_succ, List.drop_succ_cons, List.drop_zero]
    rw [hn, if_neg (by simp)]
    rw [List.take_left, List.drop_left,
        rawIterFuel_eq_rawIter _ tail _ (by simp only [List.length_append]; omega),
        show idx + 3 + d.length = idx + (0x4d :: d.length % 256 :: d.length / 256 :: d).length by
          simp; omega]
    rfl
  · -- OP_PUSHDATA4
    have he : enc = 0x4e :: d.length % 256 :: d.length / 256 % 256 ::
        d.length / 65536 % 256 :: d.length / 16777216 :: d := (Option.some.inj henc).symm
    subst he
    have hn : d.length % 256 + d.length / 256 % 256 * 256 + d.length / 65536 % 256 * 65536 +
        d.length / 16777216 * 16777216 = d.length := by omega
    show rawIterFuel (0x4e :: d.length % 256 :: d.length / 256 % 256 ::
        d.length / 65536 % 256 :: d.length / 16777216 :: (d ++ tail)).length
        (0x4e :: d.length % 256 :: d.length / 256 % 256 ::
        d.length / 65536 % 256 :: d.length / 16777216 :: (d ++ tail)) idx = _
    simp only [List.length_cons, rawIterFuel]
    rw [if_neg (by omega), if_neg (by omega), if_neg (by omega), if_neg (by omega),
        if_neg (by simp)]
    simp only [List.getD_cons_zero, List.getD_cons_succ, List.drop_succ_cons, List.drop_zero]
    rw [hn, if_neg (by simp)]
    rw [List.take_left, List.drop_left,
        rawIterFuel_eq_rawIter _ tail _ (by simp only [List.length_append]; omega),
        show idx + 5 + d.length = idx + (0x4e :: d.length % 256 :: d.length / 256 % 256 ::
          d.length / 65536 % 256 :: d.length / 16777216 :: d).length by simp; omega]
    rfl

theorem map_cons_ne_ok_nil (a : RawOp) (x : Except String (List RawOp)) :
    x.map (fun t => a :: t) ≠ .ok [] := by
  cases x <;> simp [Except.map]

theorem rawIter_ok_nil_inv (l : List Nat) (idx : Nat)
    (h : rawIter l idx = .ok []) : l = [] := by
  cases l with
  | nil => rfl
  | cons b rest =>
    exfalso
    rw [rawIter] at h
    simp only [List.length_cons, rawIterFuel] at h
    split_ifs at h <;> first
      | exact map_cons_ne_ok_nil _ _ h
      | simp at h

theorem drop_cons_add (b : Nat) (t : List Nat) (k n : Nat) (hk : 0 < k) :
    (b :: t).drop (k + n) = (t.drop (k - 1)).drop n := by
  rw [List.drop_drop]
  cases k with
  | zero => omega
  | succ k0 =>
    simp only [Nat.succ_sub_one]
    rw [show k0 + 1 + n = (n + k0) + 1 by omega, List.drop_succ_cons, Nat.add_comm]

theorem rawIter_eq_cons (l : List Nat) (j op s : Nat) (dat : Option (List Nat))
    (rest : List RawOp) (h : rawIter l j = .ok ((op, dat, s) :: rest)) :
    s = j ∧ ∃ c, 0 < c ∧ rawIter (l.drop c) (j + c) = .ok rest := by
  cases l with
  | nil => simp [rawIter, rawIterFuel] at h
  | cons b t =>
    rw [rawIter] at h
    simp only [List.length_cons, rawIterFuel] at h
    split_ifs at h with h1 h2 h3 h4 h5 h6 h7 h8 h9 h10 h11
    · -- plain opcode
      rcases hEq : rawIterFuel t.length t (j + 1) with e | tl <;> rw [hEq] at h <;>
        simp only [Except.map] at h
      · exact absurd h (by simp)
      have hh := Except.ok.inj h
      have hhd := (List.cons.inj hh).1
      have htl := (List.cons.inj hh).2
      refine ⟨(congrArg (fun y : RawOp => y.2.2) hhd).symm, 1, Nat.one_pos, ?_⟩
      rw [← htl, List.drop_one, List.tail_cons]
      rw [← rawIterFuel_eq_rawIter t.length _ _ le_rfl]
      exact hEq
    · -- direct push
      rcases hEq : rawIterFuel t.length (t.drop b) (j + 1 + b) with e | tl <;> rw [hEq] at h <;>
        simp only [Except.map] at h
      · exact absurd h (by simp)
      have hh := Except.ok.inj h
      have hhd := (List.cons.inj hh).1
      have htl := (List.cons.inj hh).2
      refine ⟨(congrArg (fun y : RawOp => y.2.2) hhd).symm, 1 + b, by omega, ?_⟩
      rw [← htl, drop_cons_add b t 1 b Nat.one_pos]
      simp only [Nat.sub_self, List.drop_zero]
      rw [show j + (1 + b) = j + 1 + b by omega,
          ← rawIterFuel_eq_rawIter t.length (t.drop b) _
            (by simp only [List.length_drop]; omega)]
      exact hEq
    · -- OP_PUSHDATA1
      rcases hEq : rawIterFuel t.length ((t.drop 1).drop (t.getD 0 0))
          (j + 2 + t.getD 0 0) with e | tl <;> rw [hEq] at h <;>
        simp only [Except.map] at h
      · exact absurd h (by simp)
      have hh := Except.ok.inj h
      have hhd := (List.cons.inj hh).1
      have htl := (List.cons.inj hh).2
      refine ⟨(congrArg (fun y : RawOp => y.2.2) hhd).symm, 2 + t.getD 0 0, by omega, ?_⟩
      rw [← htl, drop_cons_add b t 2 (t.getD 0 0) (by omega)]
      rw [show j + (2 + t.getD 0 0) = j + 2 + t.getD 0 0 by omega,
          ← rawIterFuel_eq_rawIter t.length ((t.drop 1).drop (t.getD 0 0)) _
            (by simp only [List.length_drop]; omega)]
      exact hEq
    · -- OP_PUSHDATA2
      rcases hEq : rawIterFuel t.length ((t.drop 2).drop (t.getD 0 0 + t.getD 1 0 * 256))
          (j + 3 + (t.getD 0 0 + t.getD 1 0 * 256)) with e | tl <;> rw [hEq] at h <;>
        simp only [Except.map] at h
      · exact absurd h (by simp)
      have hh := Except.ok.inj h
      have hhd := (List.cons.inj hh).1
      have htl := (List.cons.inj hh).2
      refine ⟨(congrArg (fun y : RawOp => y.2.2) hhd).symm,
        3 + (t.getD 0 0 + t.getD 1 0 * 256), by omega, ?_⟩
      rw [← htl, drop_cons_add b t 3 (t.getD 0 0 + t.getD 1 0 * 256) (by omega)]
      rw [show j + (3 + (t.getD 0 0 + t.getD 1 0 * 256)) =
            j + 3 + (t.getD 0 0 + t.getD 1 0 * 256) by omega,
          ← rawIterFuel_eq_rawIter t.length
            ((t.drop 2).drop (t.getD 0 0 + t.getD 1 0 * 256)) _
            (by simp only [List.length_drop]; omega)]
      exact hEq
    · -- OP_PUSHDATA4
      rcases hEq : rawIterFuel t.length
          ((t.drop 4).drop (t.getD 0 0 + t.getD 1 0 * 256 + t.getD 2 0 * 65536 + t.getD 3 0 * 16777216))
          (j + 5 + (t.getD 0 0 + t.getD 1 0 * 256 + t.getD 2 0 * 65536 + t.getD 3 0 * 16777216))
          with e | tl <;> rw [hEq] at h <;>
        simp only [Except.map] at h
      · exact absurd h (by simp)
      have hh := Except.ok.inj h
      have hhd := (List.cons.inj hh).1
      have htl := (List.cons.inj hh).2
      refine ⟨(congrArg (fun y : RawOp => y.2.2) hhd).symm,
        5 + (t.getD 0 0 + t.getD 1 0 * 256 + t.getD 2 0 * 65536 + t.getD 3 0 * 16777216),
        by omega, ?_⟩
      rw [← htl, drop_cons_add b t 5
            (t.getD 0 0 + t.getD 1 0 * 256 + t.getD 2 0 * 65536 + t.getD 3 0 * 16777216) (by omega)]
      rw [show j + (5 + (t.getD 0 0 + t.getD 1 0 * 256 + t.getD 2 0 * 65536 + t.getD 3 0 * 16777216)) =
            j + 5 + (t.getD 0 0 + t.getD 1 0 * 256 + t.getD 2 0 * 65536 + t.getD 3 0 * 16777216) by
            omega,
          ← rawIterFuel_eq_rawIter t.length
            ((t.drop 4).drop
              (t.getD 0 0 + t.getD 1 0 * 256 + t.getD 2 0 * 65536 + t.getD 3 0 * 16777216)) _
            (by simp only [List.length_drop]; omega)]
      exact hEq

theorem take_glue (script : List Nat) (last j : Nat) (h : last ≤ j) :
    (script.drop last).take (j - last) ++ script.drop j = script.drop last := by
  have hdj : script.drop j = (script.drop last).drop (j - last) := by
    rw [List.drop_drop]; congr 1; omega
  rw [hdj, List.take_append_drop]

theorem fadLoop_no_match (script sig : List Nat) :
    ∀ (ops : List RawOp) (j last : Nat) (r : List Nat),
      rawIter (script.drop j) j = .ok ops → last ≤ j →
      (∀ x ∈ ops, ¬ ((script.drop x.2.2).take sig.length = sig)) →
      fadLoop script sig ops r last false = r ++ script.drop last := by
  intro ops
  induction ops with
  | nil =>
    intro j last r hok hle hnm
    simp [fadLoop]
  | cons x rest ih =>
    intro j last r hok hle hnm
    obtain ⟨x1, x2, x3⟩ := x
    obtain ⟨hs, c, hc, hrest⟩ := rawIter_eq_cons _ _ _ _ _ _ hok
    have hdd : (script.drop j).drop c = script.drop (j + c) := by
      rw [List.drop_drop]
    rw [hdd] at hrest
    have hmatch : ((script.drop x3).take sig.length == sig) = false := by
      have hm := hnm (x1, x2, x3) (List.mem_cons_self _ _)
      simpa [beq_iff_eq] using hm
    rw [show fadLoop script sig ((x1, x2, x3) :: rest) r last false =
          fadLoop script sig rest (r ++ (script.drop last).take (x3 - last)) x3
            ((script.drop x3).take sig.length == sig) from rfl,
        hmatch, hs]
    rw [ih (j + c) j (r ++ (script.drop last).take (j - last)) hrest (by omega)
          (fun y hy => hnm y (List.mem_cons_of_mem _ hy)),
        List.append_assoc, take_glue script last j hle]

/-- C6: if the needle matches at no start-of-operation offset of a valid
script, `FindAndDelete` returns the script unchanged. -/
theorem findAndDelete_no_match (S sig : List Nat) (ops : List RawOp)
    (hok : rawIter S 0 = .ok ops)
    (hnm : ∀ x ∈ ops, ¬ ((S.drop x.2.2).take sig.length = sig)) :
    FindAndDelete S sig = .ok S := by
  rw [FindAndDelete, hok]
  simp only [Except.map, Except.ok.injEq]
  cases ops with
  | nil =>
    have hS : S = [] := rawIter_ok_nil_inv S 0 hok
    subst hS; rfl
  | cons x rest =>
    obtain ⟨x1, x2, x3⟩ := x
    obtain ⟨hs, c, hc, hrest⟩ := rawIter_eq_cons S 0 x1 x3 x2 rest hok
    subst hs
    have hmatch : ((S.drop 0).take sig.length == sig) = false := by
      have hm := hnm (x1, x2, 0) (List.mem_cons_self _ _)
      simpa [beq_iff_eq] using hm
    have hrest' : rawIter (S.drop c) c = .ok rest := by simpa using hrest
    rw [show fadLoop S sig ((x1, x2, 0) :: rest) [] 0 true =
          fadLoop S sig rest [] 0 ((S.drop 0).take sig.length == sig) from rfl,
        hmatch]
    rw [fadLoop_no_match S sig rest c 0 [] (by simpa using hrest') (by omega)
          (fun y hy => hnm y (List.mem_cons_of_mem _ hy))]
    simp

/-- Witness for C6 at the script `OP_1 OP_CHECKSIG` and needle `OP_DROP`. -/
theorem findAndDelete_no_match_witness :
    FindAndDelete [0x51, 0xac] [0x75] = .ok [0x51, 0xac] :=
  findAndDelete_no_match [0x51, 0xac] [0x75]
    [(0x51, none, 0), (0xac, none, 1)] (by decide) (by decide)

/-- C5: for data of at most `0xffffffff` bytes, `encode_op_pushdata`
succeeds, raw iteration of the encoding yields exactly one operation
whose attached data is `d`, and the smallest prefix is chosen (direct
push below `0x4c`, `OP_PUSHDATA1` up to `0xff`, `OP_PUSHDATA2` up to
`0xffff`, `OP_PUSHDATA4` up to `0xffffffff`); longer data fails. -/
theorem encode_op_pushdata_roundtrip (d : List Nat) :
    (0xffffffff < d.length → encode_op_pushdata d = none) ∧
    (d.length ≤ 0xffffffff →
      ∃ enc, encode_op_pushdata d = some enc ∧
        rawIter enc 0 = .ok [(enc.headD 0, some d, 0)] ∧
        (d.length < 0x4c → enc = d.length :: d) ∧
        (0x4c ≤ d.length → d.length ≤ 0xff → enc = 0x4c :: d.length :: d) ∧
        (0xff < d.length → d.length ≤ 0xffff →
          enc = 0x4d :: d.length % 256 :: d.length / 256 :: d) ∧
        (0xffff < d.length → enc = 0x4e :: d.length % 256 :: d.length / 256 % 256 ::
          d.length / 65536 % 256 :: d.length / 16777216 :: d)) := by
  constructor
  · intro hbig
    rw [encode_op_pushdata, if_neg (by omega), if_neg (by omega), if_neg (by omega),
        if_neg (by omega)]
  · intro hle
    have henc : ∃ enc, encode_op_pushdata d = some enc := by
      rw [encode_op_pushdata]
      split_ifs <;> first | exact ⟨_, rfl⟩ | omega
    obtain ⟨enc, henc⟩ := henc
    refine ⟨enc, henc, ?_, ?_, ?_, ?_, ?_⟩
    · have hparse := rawIter_cons_push d enc henc [] 0
      rw [List.append_nil] at hparse
      rw [hparse, rawIter_nil]
      rfl
    · intro hc1
      rw [encode_op_pushdata, if_pos hc1] at henc
      exact (Option.some.inj henc).symm
    · intro hc1 hc2
      rw [encode_op_pushdata, if_neg (by omega), if_pos hc2] at henc
      exact (Option.some.inj henc).symm
    · intro hc1 hc2
      rw [encode_op_pushdata, if_neg (by omega), if_neg (by omega), if_pos hc2] at henc
      exact (Option.some.inj henc).symm
    · intro hc1
      rw [encode_op_pushdata, if_neg (by omega), if_neg (by omega), if_neg (by omega),
          if_pos hle] at henc
      exact (Option.some.inj henc).symm

/-- Witness for C5 at the three-byte datum `[7, 8, 9]`. -/
theorem encode_op_pushdata_roundtrip_witness :
    ∃ enc, encode_op_pushdata [7, 8, 9] = some enc ∧
      rawIter enc 0 = .ok [(enc.headD 0, some [7, 8, 9], 0)] ∧ enc = [3, 7, 8, 9] := by
  obtain ⟨enc, h1, h2, h3, -, -, -⟩ :=
    (encode_op_pushdata_roundtrip [7, 8, 9]).2 (by decide)
  exact ⟨enc, h1, h2, h3 (by decide)⟩

/-! ### Lemmas towards the builder-canonicality claim -/

theorem natLEAux_ne_nil (f m : Nat) (h1 : 1 ≤ m) (h2 : m ≤ f) :
    natLEAux f m ≠ [] := by
  cases f with
  | zero => omega
  | succ f0 =>
    simp only [natLEAux]
    rw [if_neg (by omega)]
    simp

theorem natLE_ne_nil (m : Nat) (h : 1 ≤ m) : natLE m ≠ [] :=
  natLEAux_ne_nil m m h le_rfl

theorem natLEAux_singleton (f m v : Nat) (hf : m ≤ f) (h : natLEAux f m = [v]) :
    v = m := by
  cases f with
  | zero =>
    have : m = 0 := by omega
    subst this
    simp [natLEAux] at h
  | succ f0 =>
    simp only [natLEAux] at h
    by_cases hm : m = 0
    · rw [if_pos hm] at h; simp at h
    · rw [if_neg hm] at h
      have h1 := (List.cons.inj h).1
      have h2 := (List.cons.inj h).2
      by_cases hd : m / 256 = 0
      · omega
      · exact absurd h2 (natLEAux_ne_nil f0 (m / 256) (by omega) (by omega))

theorem bn2vch_not_small_push (n : Int) (h1 : ¬(0 ≤ n ∧ n ≤ 16)) (h2 : ¬n = -1) :
    ¬((bn2vch n).length = 1 ∧ (bn2vch n).headD 0 ≤ 16) := by
  rintro ⟨hlen, hhead⟩
  have hm : 1 ≤ n.natAbs := by omega
  have hne : natLE n.natAbs ≠ [] := natLE_ne_nil _ hm
  simp only [bn2vch] at hlen hhead
  split_ifs at hlen hhead with ha hb hc hd
  · exact hne ha
  · simp only [List.length_append, List.length_singleton] at hlen
    exact hne (List.length_eq_zero.mp (by omega))
  · simp only [List.length_append, List.length_singleton] at hlen
    exact hne (List.length_eq_zero.mp (by omega))
  · simp only [List.length_append, List.length_singleton] at hlen
    have hz : (natLE n.natAbs).dropLast.length = 0 := by omega
    rw [List.length_eq_zero.mp hz] at hhead
    simp only [List.nil_append, List.headD_cons] at hhead
    omega
  · obtain ⟨v, hv⟩ := List.length_eq_one.mp hlen
    have hvm : v = n.natAbs := natLEAux_singleton n.natAbs n.natAbs v le_rfl hv
    rw [hv] at hhead
    simp only [List.headD_cons] at hhead
    omega

theorem canonPred_encode (d enc : List Nat) (idx : Nat)
    (hd : ¬(d.length = 1 ∧ d.headD 0 ≤ 16))
    (henc : encode_op_pushdata d = some enc) :
    canonPred (enc.headD 0, some d, idx) = true := by
  rw [encode_op_pushdata] at henc
  split_ifs at henc with hc1 hc2 hc3 hc4
  · obtain rfl := Option.some.inj henc
    simp only [canonPred, List.headD_cons, Option.getD_some]
    rw [if_neg (by omega), if_neg (fun hcon => hd ⟨hcon.2.2.1, hcon.2.2.2⟩),
        if_neg (by omega), if_neg (by omega), if_neg (by omega)]
  · obtain rfl := Option.some.inj henc
    simp only [canonPred, List.headD_cons, Option.getD_some]
    rw [if_neg (by omega), if_neg (by omega), if_neg (by omega), if_neg (by omega),
        if_neg (by omega)]
  · obtain rfl := Option.some.inj henc
    simp only [canonPred, List.headD_cons, Option.getD_some]
    rw [if_neg (by omega), if_neg (by omega), if_neg (by omega), if_neg (by omega),
        if_neg (by omega)]
  · obtain rfl := Option.some.inj henc
    simp only [canonPred, List.headD_cons, Option.getD_some]
    rw [if_neg (by omega), if_neg (by omega), if_neg (by omega), if_neg (by omega),
        if_neg (by omega)]

theorem canonPred_plain (b : Nat) (hb : b = 0x4f ∨ 0x50 ≤ b) (idx : Nat) :
    canonPred (b, none, idx) = true := by
  simp only [canonPred]
  split_ifs with h1 h2 h3 h4 h5 <;> first | rfl | omega

/-- The side conditions on builder items under which the amended
canonical-push claim holds: an opcode item is `OP_0` or lies above the
push range, and a byte-sequence item is not a single byte of value at
most 16 (such a push is exactly the counterexample of scenario S5). -/
def goodItem : ScriptItem → Bool
  | .opcode b => decide (b ≤ 0xff) && (decide (b = 0) || decide (0x4e < b))
  | .int _ => true
  | .bytes d => !(decide (d.length = 1) && decide (d.headD 0 ≤ 16))

theorem coerce_parse (it : ScriptItem) (frag : List Nat)
    (hg : goodItem it = true) (hc : coerceInstance it = some frag)
    (tail : List Nat) (idx : Nat) :
    ∃ op dat, rawIter (frag ++ tail) idx =
        (rawIter tail (idx + frag.length)).map (fun t => (op, dat, idx) :: t) ∧
      canonPred (op, dat, idx) = true := by
  cases it with
  | opcode b =>
    simp only [goodItem, Bool.and_eq_true, Bool.or_eq_true, decide_eq_true_eq] at hg
    obtain ⟨hb, hcase⟩ := hg
    rw [coerceInstance, if_pos hb] at hc
    obtain rfl := Option.some.inj hc
    rcases hcase with rfl | hgt
    · exact ⟨0, some [], rawIter_cons_push [] [0] rfl tail idx, rfl⟩
    · exact ⟨b, none, rawIter_cons_op b hgt tail idx, canonPred_plain b (by omega) idx⟩
  | int n =>
    rw [coerceInstance] at hc
    split_ifs at hc with hr hneg
    · rw [encode_op_n] at hc
      split_ifs at hc with h16 h0
      · exact absurd hc (by simp)
      · have hfrag : [(0x00 : Nat)] = frag := by simpa using hc
        obtain rfl := hfrag
        exact ⟨0, some [], rawIter_cons_push [] [0] rfl tail idx, rfl⟩
      · have hfrag : [0x51 + n.toNat - 1] = frag := by simpa using hc
        obtain rfl := hfrag
        refine ⟨0x51 + n.toNat - 1, none,
          rawIter_cons_op (0x51 + n.toNat - 1) (by omega) tail idx,
          canonPred_plain _ (by omega) idx⟩
    · obtain rfl := Option.some.inj hc
      exact ⟨0x4f, none, rawIter_cons_op 0x4f (by omega) tail idx,
        canonPred_plain 0x4f (by omega) idx⟩
    · exact ⟨frag.headD 0, some (bn2vch n), rawIter_cons_push _ _ hc tail idx,
        canonPred_encode _ _ idx (bn2vch_not_small_push n hr hneg) hc⟩
  | bytes d =>
    rw [coerceInstance] at hc
    have hd : ¬(d.length = 1 ∧ d.headD 0 ≤ 16) := by
      intro hcon
      rw [show goodItem (.bytes d) = !(decide (d.length = 1) && decide (d.headD 0 ≤ 16))
            from rfl,
          decide_eq_true hcon.1, decide_eq_true hcon.2] at hg
      simp at hg
    exact ⟨frag.headD 0, some d, rawIter_cons_push d frag hc tail idx,
      canonPred_encode d frag idx hd hc⟩

theorem buildScript_canon_aux (items : List ScriptItem) :
    ∀ (S : List Nat), (∀ it ∈ items, goodItem it = true) → buildScript items = some S →
      ∀ idx, ∃ ops, rawIter S idx = .ok ops ∧ ops.all canonPred = true := by
  induction items with
  | nil =>
    intro S hg hb idx
    obtain rfl : ([] : List Nat) = S := by simpa [buildScript] using hb
    exact ⟨[], rawIter_nil idx, rfl⟩
  | cons it rest ih =>
    intro S hg hb idx
    rw [buildScript] at hb
    rcases hci : coerceInstance it with - | frag <;> rw [hci] at hb
    · simp at hb
    rcases hbr : buildScript rest with - | S2 <;> rw [hbr] at hb
    · simp at hb
    obtain rfl : frag ++ S2 = S := by simpa using hb
    obtain ⟨op, dat, hparse, hcanon⟩ :=
      coerce_parse it frag (hg it (List.mem_cons_self _ _)) hci S2 idx
    obtain ⟨ops2, hok2, hall2⟩ :=
      ih S2 (fun y hy => hg y (List.mem_cons_of_mem _ hy)) hbr (idx + frag.length)
    refine ⟨(op, dat, idx) :: ops2, ?_, ?_⟩
    · rw [hparse, hok2]; rfl
    · simp only [List.all_cons, hcanon, hall2, Bool.and_self]

/-- C3 (amended): a script built exclusively from `CScript` builder
coercions has canonical pushes, provided every opcode item is `OP_0` or
lies above the push range `0x01-0x4E`, and no byte-sequence item is a
single byte of value at most 16. -/
theorem builder_coercions_canonical (items : List ScriptItem) (S : List Nat)
    (hg : ∀ it ∈ items, goodItem it = true) (hb : buildScript items = some S) :
    has_canonical_pushes S = true := by
  obtain ⟨ops, hok, hall⟩ := buildScript_canon_aux items S hg hb 0
  rw [has_canonical_pushes, hok]
  exact hall

/-- Counterexample to C3 as stated: the byte-sequence item `[0x05]` is
coerced by the builder into the direct push `01 05`, which
`has_canonical_pushes` rejects (it should have been `OP_5`). -/
theorem builder_single_small_byte_counterexample :
    buildScript [.bytes [0x05]] = some [0x01, 0x05] ∧
    has_canonical_pushes [0x01, 0x05] = false := by
  constructor <;> rfl

/-- Witness for the amended C3 on the item list
`[OP_DUP, bytes ab cd, int 5]`. -/
theorem builder_coercions_canonical_witness :
    has_canonical_pushes [0x76, 0x02, 0xab, 0xcd, 0x55] = true :=
  builder_coercions_canonical [.opcode 0x76, .bytes [0xab, 0xcd], .int 5]
    [0x76, 0x02, 0xab, 0xcd, 0x55] (by decide) (by rfl)

/-- C8: on any byte sequence whose raw iteration raises a decoding
error, `is_valid`, `is_push_only` and `has_canonical_pushes` all return
false instead of propagating the error. -/
theorem predicates_false_on_invalid (S : List Nat) (e : String)
    (h : rawIter S 0 = .error e) :
    is_valid S = false ∧ is_push_only S = false ∧ has_canonical_pushes S = false := by
  refine ⟨?_, ?_, ?_⟩
  · rw [is_valid, cookedIter, h]; rfl
  · rw [is_push_only, h]
  · rw [has_canonical_pushes, h]

/-- Witness for C8 at the one-byte script `4c` (an `OP_PUSHDATA1` with
its length byte missing). -/
theorem predicates_false_on_invalid_witness :
    rawIter [0x4c] 0 = .error "PUSHDATA1: missing data length" ∧
    is_valid [0x4c] = false ∧ is_push_only [0x4c] = false ∧
    has_canonical_pushes [0x4c] = false := by
  refine ⟨rfl, ?_⟩
  have h := predicates_false_on_invalid [0x4c] "PUSHDATA1: missing data length" rfl
  exact ⟨h.1, h.2.1, h.2.2⟩

/-- C10: for a redeem script of at most `MAX_SCRIPT_ELEMENT_SIZE` bytes,
`to_p2sh_scriptPubKey` (with `checksize`) returns the 23-byte script
`OP_HASH160 <20-byte push> OP_EQUAL`, and that script satisfies
`is_p2sh`.  The `Hash160` collaborator returns 20 bytes (spec section
6). -/
theorem to_p2sh_scriptPubKey_is_p2sh (hash160 : List Nat → List Nat) (l : List Nat)
    (h20 : (hash160 l).length = 20) (hlen : l.length ≤ MAX_SCRIPT_ELEMENT_SIZE) :
    to_p2sh_scriptPubKey hash160 l true = .ok (0xa9 :: 0x14 :: (hash160 l ++ [0x87])) ∧
    is_p2sh (0xa9 :: 0x14 :: (hash160 l ++ [0x87])) = true := by
  have hbytes : coerceInstance (.bytes (hash160 l)) = some (0x14 :: hash160 l) := by
    show encode_op_pushdata (hash160 l) = some (0x14 :: hash160 l)
    rw [encode_op_pushdata, if_pos (by omega), h20]
  have hb2 : buildScript [.bytes (hash160 l), .opcode 0x87] =
      some ((0x14 :: hash160 l) ++ [0x87]) := by
    rw [buildScript, hbytes]
    rfl
  have hb : buildScript [.opcode 0xa9, .bytes (hash160 l), .opcode 0x87] =
      some (0xa9 :: 0x14 :: (hash160 l ++ [0x87])) := by
    rw [buildScript, hb2]
    rfl
  constructor
  · rw [to_p2sh_scriptPubKey,
        if_neg (by intro hcon; simp only [MAX_SCRIPT_ELEMENT_SIZE] at hcon hlen; omega), hb]
  · have h0 : (0xa9 :: 0x14 :: (hash160 l ++ [0x87])).length = 23 := by
      simp [h20]
    have h22 : (0xa9 :: 0x14 :: (hash160 l ++ [0x87])).getD 22 0 = 0x87 := by
      show ((hash160 l) ++ [0x87]).getD 20 0 = 0x87
      rw [List.getD_append_right _ _ _ _ (by omega), h20]
      rfl
    rw [is_p2sh, decide_eq_true h0, decide_eq_true h22,
        decide_eq_true (show (0xa9 :: 0x14 :: (hash160 l ++ [0x87])).getD 0 0 = 0xa9 from rfl),
        decide_eq_true (show (0xa9 :: 0x14 :: (hash160 l ++ [0x87])).getD 1 0 = 0x14 from rfl)]
    rfl

/-- Witness for C10 at the empty redeem script and a constant 20-byte
hash function. -/
theorem to_p2sh_scriptPubKey_is_p2sh_witness :
    to_p2sh_scriptPubKey (fun _ => List.replicate 20 7) [] true =
      .ok (0xa9 :: 0x14 :: (List.replicate 20 7 ++ [0x87])) ∧
    is_p2sh (0xa9 :: 0x14 :: (List.replicate 20 7 ++ [0x87])) = true :=
  to_p2sh_scriptPubKey_is_p2sh (fun _ => List.replicate 20 7) []
    (by decide) (by decide)

/-- Counterexample to C4 as stated: `OPCODE_NAMES` names byte `0xFF`
(`OP_INVALIDOPCODE`), but `OPCODES_BY_NAME` has no entry for that name,
so the round-trip lookup is undefined there. -/
theorem opcode_names_invalidopcode_no_inverse :
    dictGetN OPCODE_NAMES 0xff = some "OP_INVALIDOPCODE" ∧
    dictGetS OPCODES_BY_NAME "OP_INVALIDOPCODE" = none := by
  constructor <;> rfl

set_option maxRecDepth 4000 in
/-- C4 (amended): for every byte key of `OPCODE_NAMES` other than
`0xFF = OP_INVALIDOPCODE`, looking up the byte's name in
`OPCODES_BY_NAME` yields the byte again; for `0xFF` the lookup is
undefined. -/
theorem opcode_name_roundtrip_except_ff :
    ∀ p ∈ OPCODE_NAMES, p.1 ≠ 0xff →
      (dictGetN OPCODE_NAMES p.1).bind (dictGetS OPCODES_BY_NAME) = some p.1 := by
  decide

/-- Witness for the amended C4 at the entry for `OP_0`. -/
theorem opcode_name_roundtrip_except_ff_witness :
    (dictGetN OPCODE_NAMES 0x00).bind (dictGetS OPCODES_BY_NAME) = some 0x00 :=
  opcode_name_roundtrip_except_ff (0x00, "OP_0") (by decide) (by decide)

/-- C2 evaluated at the failing input: on the script
`OP_1 <push 02> OP_1 OP_CHECKMULTISIG`, `GetSigOpCount(fAccurate=true)`
raises (the source decodes the current opcode, `OP_CHECKMULTISIG`,
instead of `lastOpcode`), while the claim says it returns 1;
`GetSigOpCount(fAccurate=false)` returns 20 as claimed. -/
theorem getSigOpCount_accurate_raises :
    GetSigOpCount [0x51, 0x01, 0x02, 0x51, 0xae] true =
      .error "decode_op_n: op is not an OP_N" ∧
    GetSigOpCount [0x51, 0x01, 0x02, 0x51, 0xae] false = .ok 20 := by
  constructor <;> rfl

/-! ### The legacy signature-hash claims -/

theorem rawSigHashFinish_tag (Hash : List Nat → List Nat) (ser : CTx → List Nat)
    (txtmp txTo : CTx) (inIdx hashtype : Nat) :
    ∃ h, rawSigHashFinish Hash ser txtmp txTo inIdx hashtype = .ok ((h, none), txTo) :=
  ⟨_, rfl⟩

theorem rshClear_vout (t : CTx) (fd : List Nat) (i : Nat) :
    (rshClear t fd i).vout = t.vout := rfl

theorem rawSignatureHashSt_eq_body (Hash : List Nat → List Nat) (ser : CTx → List Nat)
    (script : List Nat) (txTo : CTx) (inIdx hashtype : Nat) (fd : List Nat)
    (hv : ¬txTo.vin.length ≤ inIdx) (hfd : FindAndDelete script [0xab] = .ok fd) :
    RawSignatureHashSt Hash ser script txTo inIdx hashtype =
      rawSigHashBody Hash ser txTo inIdx hashtype fd := by
  rw [RawSignatureHashSt, if_neg hv, hfd]

/-- C1: the SIGHASH_SINGLE bug.  Given that `FindAndDelete` succeeds on
the script code, `RawSignatureHash` yields the sentinel digest
`01 00...00` with a non-`None` error tag exactly when the input index is
at or beyond `len(vin)`, or the low five hashtype bits are
`SIGHASH_SINGLE` and the index is at or beyond `len(vout)`; in those
cases the cooked `SignatureHash` with `sigversion = SIGVERSION_BASE`
raises instead of returning a digest. -/
theorem sighash_single_bug_sentinel (Hash : List Nat → List Nat) (ser : CTx → List Nat)
    (serOut : CTxOut → List Nat) (script : List Nat) (txTo : CTx)
    (inIdx hashtype : Nat) (amount : Int) (fd : List Nat)
    (hfd : FindAndDelete script [0xab] = .ok fd) :
    ((∃ m, RawSignatureHash Hash ser script txTo inIdx hashtype = .ok (HASH_ONE, some m)) ↔
      (txTo.vin.length ≤ inIdx ∨
        (hashtype &&& 0x1f = 3 ∧ inIdx < txTo.vin.length ∧ txTo.vout.length ≤ inIdx))) ∧
    ((txTo.vin.length ≤ inIdx ∨
        (hashtype &&& 0x1f = 3 ∧ inIdx < txTo.vin.length ∧ txTo.vout.length ≤ inIdx)) →
      ∃ e, SignatureHash Hash ser serOut script txTo inIdx hashtype amount 0 = .error e) := by
  by_cases hv : txTo.vin.length ≤ inIdx
  · have hraw : RawSignatureHash Hash ser script txTo inIdx hashtype =
        .ok (HASH_ONE, some ("inIdx " ++ toString inIdx ++ " out of range (" ++
          toString txTo.vin.length ++ ")")) := by
      rw [RawSignatureHash, RawSignatureHashSt, if_pos hv]
      rfl
    refine ⟨⟨fun _ => Or.inl hv, fun _ => ⟨_, hraw⟩⟩, fun _ => ?_⟩
    rw [SignatureHash, if_neg (by omega)]
    by_cases hw : is_witness_scriptpubkey script
    · rw [if_pos hw]
      exact ⟨_, rfl⟩
    · rw [if_neg hw, hraw]
      exact ⟨_, rfl⟩
  · have hbody := rawSignatureHashSt_eq_body Hash ser script txTo inIdx hashtype fd hv hfd
    by_cases hs : hashtype &&& 0x1f = 3
    · by_cases ho : txTo.vout.length ≤ inIdx
      · have hraw : RawSignatureHash Hash ser script txTo inIdx hashtype =
            .ok (HASH_ONE, some ("outIdx " ++ toString inIdx ++ " out of range (" ++
              toString txTo.vout.length ++ ")")) := by
          rw [RawSignatureHash, hbody, rawSigHashBody, if_neg (by omega), if_pos hs,
              if_pos (by rw [rshClear_vout]; exact ho), rshClear_vout]
          rfl
        refine ⟨⟨fun _ => Or.inr ⟨hs, by omega, ho⟩, fun _ => ⟨_, hraw⟩⟩, fun _ => ?_⟩
        rw [SignatureHash, if_neg (by omega)]
        by_cases hw : is_witness_scriptpubkey script
        · rw [if_pos hw]
          exact ⟨_, rfl⟩
        · rw [if_neg hw, hraw]
          exact ⟨_, rfl⟩
      · have hraw : ∃ h, RawSignatureHash Hash ser script txTo inIdx hashtype =
            .ok (h, none) := by
          rw [RawSignatureHash, hbody, rawSigHashBody, if_neg (by omega), if_pos hs,
              if_neg (by rw [rshClear_vout]; exact ho)]
          exact ⟨_, rfl⟩
        obtain ⟨h0, hh0⟩ := hraw
        constructor
        · constructor
          · rintro ⟨m, hm⟩
            rw [hh0] at hm
            simp at hm
          · rintro (hcase | ⟨-, -, hcase⟩) <;> omega
        · rintro (hcase | ⟨-, -, hcase⟩) <;> omega
    · have hraw : ∃ h, RawSignatureHash Hash ser script txTo inIdx hashtype =
          .ok (h, none) := by
        by_cases h2 : hashtype &&& 0x1f = 2
        · rw [RawSignatureHash, hbody, rawSigHashBody, if_pos h2]
          exact ⟨_, rfl⟩
        · rw [RawSignatureHash, hbody, rawSigHashBody, if_neg h2, if_neg hs]
          exact ⟨_, rfl⟩
      obtain ⟨h0, hh0⟩ := hraw
      constructor
      · constructor
        · rintro ⟨m, hm⟩
          rw [hh0] at hm
          simp at hm
        · rintro (hcase | ⟨hcase, -, -⟩) <;> omega
      · rintro (hcase | ⟨hcase, -, -⟩) <;> omega

/-- Witness for C1 on a transaction with no inputs at index 0. -/
theorem sighash_single_bug_sentinel_witness :
    (∃ m, RawSignatureHash (fun _ => []) (fun _ => []) []
        ⟨1, [], [], 0, []⟩ 0 1 = .ok (HASH_ONE, some m)) ∧
    (∃ e, SignatureHash (fun _ => []) (fun _ => []) (fun _ => []) []
        ⟨1, [], [], 0, []⟩ 0 1 0 0 = .error e) := by
  have h := sighash_single_bug_sentinel (fun _ => []) (fun _ => []) (fun _ => [])
    [] ⟨1, [], [], 0, []⟩ 0 1 0 [] rfl
  exact ⟨h.1.mpr (Or.inl (by decide)), h.2 (Or.inl (by decide))⟩

/-- C9: the legacy engine never disturbs the caller's transaction: on
any successful run, the transaction value the caller retains equals the
one passed in (every edit is applied to the `from_tx` copy). -/
theorem rawSignatureHash_preserves_caller (Hash : List Nat → List Nat)
    (ser : CTx → List Nat) (script : List Nat) (txTo : CTx) (inIdx hashtype : Nat)
    (res : List Nat × Option String) (tx2 : CTx)
    (h : RawSignatureHashSt Hash ser script txTo inIdx hashtype = .ok (res, tx2)) :
    tx2 = txTo := by
  rw [RawSignatureHashSt] at h
  by_cases hv : txTo.vin.length ≤ inIdx
  · rw [if_pos hv] at h
    exact (congrArg Prod.snd (Except.ok.inj h)).symm
  · rw [if_neg hv] at h
    rcases hf : FindAndDelete script [0xab] with e | fd <;> rw [hf] at h
    · exact absurd h (by simp)
    · rw [show (match Except.ok fd with
          | Except.error e => Except.error e
          | Except.ok fd => rawSigHashBody Hash ser txTo inIdx hashtype fd) =
            rawSigHashBody Hash ser txTo inIdx hashtype fd from rfl,
          rawSigHashBody] at h
      split_ifs at h with h1 h2 h3
      · rw [rawSigHashFinish] at h
        exact (congrArg Prod.snd (Except.ok.inj h)).symm
      · exact (congrArg Prod.snd (Except.ok.inj h)).symm
      · rw [rawSigHashFinish] at h
        exact (congrArg Prod.snd (Except.ok.inj h)).symm
      · rw [rawSigHashFinish] at h
        exact (congrArg Prod.snd (Except.ok.inj h)).symm

/-- Witness for C9 on a one-input transaction signed with
`SIGHASH_ALL`, whose run takes the main serialization path. -/
theorem rawSignatureHash_preserves_caller_witness :
    (⟨1, [⟨[9], [7], 5⟩], [], 0, []⟩ : CTx) = ⟨1, [⟨[9], [7], 5⟩], [], 0, []⟩ :=
  rawSignatureHash_preserves_caller (fun _ => []) (fun _ => []) []
    ⟨1, [⟨[9], [7], 5⟩], [], 0, []⟩ 0 1 ([], none) ⟨1, [⟨[9], [7], 5⟩], [], 0, []⟩ rfl

/-- C7: with the `SIGHASH_ANYONECANPAY` bit set, the BIP-143 segwit-v0
computation uses 32 zero bytes for both `hashPrevouts` and
`hashSequence`, and the digest returned by `SignatureHash` with
`sigversion = SIGVERSION_WITNESS_V0` hashes a preimage with those two
zero blocks spliced in after the version field. -/
theorem segwit_anyonecanpay_zero_hashes (Hash : List Nat → List Nat)
    (ser : CTx → List Nat) (serOut : CTxOut → List Nat) (script : List Nat)
    (txTo : CTx) (inIdx hashtype : Nat) (amount : Int)
    (h80 : hashtype &&& 0x80 ≠ 0) :
    segwitHashPrevouts Hash txTo hashtype = List.replicate 32 0 ∧
    segwitHashSequence Hash txTo hashtype = List.replicate 32 0 ∧
    (inIdx < txTo.vin.length →
      SignatureHash Hash ser serOut script txTo inIdx hashtype amount 1 =
        .ok (Hash (packi32 txTo.nVersion ++ List.replicate 32 0 ++ List.replicate 32 0 ++
          (txTo.vin.getD inIdx defaultCTxIn).prevout ++ bytesSerialize script ++
          packi64 amount ++ pack32LE (txTo.vin.getD inIdx defaultCTxIn).nSequence ++
          segwitHashOutputs Hash serOut txTo inIdx hashtype ++
          pack32LE txTo.nLockTime ++ pack32LE hashtype))) := by
  have hp : segwitHashPrevouts Hash txTo hashtype = List.replicate 32 0 := by
    rw [segwitHashPrevouts, if_neg h80]
  have hq : segwitHashSequence Hash txTo hashtype = List.replicate 32 0 := by
    rw [segwitHashSequence, if_neg (fun hcon => h80 hcon.1)]
  refine ⟨hp, hq, fun hi => ?_⟩
  rw [SignatureHash, if_pos rfl, if_neg (by omega), segwitPreimage, hp, hq]

/-- Witness for C7 with hashtype `0x81` on a one-input transaction. -/
theorem segwit_anyonecanpay_zero_hashes_witness :
    segwitHashPrevouts (fun _ => List.replicate 32 1)
      ⟨1, [⟨[9], [], 5⟩], [], 0, []⟩ 0x81 = List.replicate 32 0 ∧
    segwitHashSequence (fun _ => List.replicate 32 1)
      ⟨1, [⟨[9], [], 5⟩], [], 0, []⟩ 0x81 = List.replicate 32 0 := by
  have h := segwit_anyonecanpay_zero_hashes (fun _ => List.replicate 32 1)
    (fun _ => []) (fun _ => []) [] ⟨1, [⟨[9], [], 5⟩], [], 0, []⟩ 0 0x81 0
    (by decide)
  exact ⟨h.1, h.2.1⟩

end Evrmore
